import Mathlib

/-!
Verification of the neuromorphic core simulator
(`01_neuromorphic_simulator/neuromorphic_core.py`).

Shallow embedding conventions:
* Python floats are modelled as exact rationals (`ℚ`); the claims under
  study are structural (which field changes, by which closed-form formula),
  not about rounding.
* Transcendental operations (`np.log10`, `10 ** x`, `np.exp`, `np.sqrt`)
  are abstracted as function parameters (`log10`, `pow10`, `expQ`, `sqrtQ`):
  the theorems hold for every choice of these functions.
* Every random draw (`np.random.normal`, `np.random.random`,
  `np.random.uniform`, `np.random.randint`) is threaded in as an explicit
  argument: the caller supplies the value the generator would have produced.
* The Python methods mutate `self`; here each operation returns the updated
  record (together with its return value when the method returns one).
-/

namespace Neuromorphic

/-- `MaterialProperties` dataclass: physical configuration constants.
The Python dataclass performs no validation of its field values. -/
structure MaterialProperties where
  grafeno_thermal_conductivity : ℚ
  hfo2_resistance_range : ℚ × ℚ
  hfo2_target_resistance : ℚ
  hfo2_variability : ℚ
  num_layers : ℕ
  neurons_per_layer : ℕ
  deriving DecidableEq, Repr

/-- The default field values of the `MaterialProperties` dataclass
(10 kΩ – 1 MΩ resistance range, 100 kΩ target, 4 % variability,
8 layers of 1250 neurons). -/
def defaultMaterialProperties : MaterialProperties :=
  { grafeno_thermal_conductivity := 5000
    hfo2_resistance_range := (10000, 1000000)
    hfo2_target_resistance := 100000
    hfo2_variability := 4/100
    num_layers := 8
    neurons_per_layer := 1250 }

/-- `np.clip(x, lo, hi)`: clamp below by `lo`, then above by `hi`. -/
def npClip (x lo hi : ℚ) : ℚ := min (max x lo) hi

/-- `HfO2Memristor` state: resistance, conductance (`filament`),
cycle counter, permanent-degradation flag, resistance history. -/
structure HfO2Memristor where
  props : MaterialProperties
  resistance : ℚ
  filament : ℚ
  cycles : ℕ
  degraded : Bool
  history : List ℚ
  deriving DecidableEq, Repr

/-- `HfO2Memristor.__init__`.  `target_resistance` defaults to `None`;
Python replaces any falsy argument (`None` or `0`) by the configured
target via `target_resistance or self.props.hfo2_target_resistance`.
`normalDraw` is the value drawn by `np.random.normal(0, variability/2)`;
`log10`/`pow10` abstract `np.log10` and `10 ** ·`. -/
def memInit (log10 pow10 : ℚ → ℚ) (target_resistance : Option ℚ)
    (normalDraw : ℚ) : HfO2Memristor :=
  let props := defaultMaterialProperties
  let r_min := props.hfo2_resistance_range.1
  let r_max := props.hfo2_resistance_range.2
  let target : ℚ :=
    match target_resistance with
    | none => props.hfo2_target_resistance
    | some v => if v = 0 then props.hfo2_target_resistance else v
  let log_r := log10 target + normalDraw
  let r0 := pow10 log_r
  let r := npClip r0 (r_min * (9/10)) (r_max * (11/10))
  { props := props, resistance := r, filament := 1 / r, cycles := 0,
    degraded := false, history := [r] }

/-- `HfO2Memristor.pulse(voltage)`.  `draw` is the value
`np.random.random()` would produce for the degradation roll (the Python
short-circuit only consumes it when `cycles > 10000`; passing it
unconditionally does not change any modelled behavior). -/
def pulse (m : HfO2Memristor) (voltage draw : ℚ) : HfO2Memristor :=
  if m.degraded then m
  else
    let cycles := m.cycles + 1
    let r1 :=
      if voltage > 1 then m.resistance * (97/100)
      else if voltage < -1 then m.resistance * (103/100)
      else m.resistance
    let r_min := m.props.hfo2_resistance_range.1
    let r_max := m.props.hfo2_resistance_range.2
    let r2 := npClip r1 r_min r_max
    let degraded := if cycles > 10000 ∧ draw < 1/10000 then true else m.degraded
    { m with cycles := cycles, resistance := r2, degraded := degraded,
             filament := 1 / r2, history := m.history ++ [r2] }

/-- `HfO2Memristor.read(voltage=0.2)`: pure (mutates nothing),
returns `0` when degraded, else the Ohm's-law current `voltage / resistance`. -/
def read (m : HfO2Memristor) (voltage : ℚ := 1/5) : ℚ :=
  if m.degraded then 0 else voltage / m.resistance

end Neuromorphic

namespace Neuromorphic

/-- `BayesianNeuron` state. -/
structure BayesianNeuron where
  id : ℕ
  layer : ℕ
  synapses : List HfO2Memristor
  threshold : ℚ
  potential : ℚ
  spike_count : ℕ
  deriving DecidableEq, Repr

/-- The current-summation loop of `BayesianNeuron.process`:
`for i, val in enumerate(inputs[:len(self.synapses)]):
   total_current += val / self.synapses[i].resistance`.
Note the direct field access `self.synapses[i].resistance` — `read` is
not called here. -/
def total_current (inputs : List ℚ) (syns : List HfO2Memristor) : ℚ :=
  ((inputs.take syns.length).zip syns).foldl
    (fun acc p => acc + p.1 / p.2.resistance) 0

/-- `BayesianNeuron.process(inputs)`.  `expQ` abstracts `np.exp`; `draw`
is the uniform `[0,1)` value from `np.random.random()`.  Returns the spike
output together with the updated neuron. -/
def process (expQ : ℚ → ℚ) (n : BayesianNeuron) (inputs : List ℚ)
    (draw : ℚ) : ℚ × BayesianNeuron :=
  let tc := total_current inputs n.synapses
  let potential := (9/10) * n.potential + (1/10) * tc
  let x := (potential - n.threshold) * 5
  let prob := 1 / (1 + expQ (-x))
  if draw < prob then
    (prob, { n with potential := 0, spike_count := n.spike_count + 1 })
  else
    (0, { n with potential := potential })

/-- `BayesianNeuron.__init__(neuron_id, layer)`: a bank of 100 memristors
(each constructed with default target, independently sampled via
`memDraw i`), threshold drawn by `np.random.uniform(0.3, 0.7)` (given as
`thrDraw`), potential 0, spike counter 0. -/
def neuronInit (log10 pow10 : ℚ → ℚ) (neuron_id layer : ℕ)
    (memDraw : ℕ → ℚ) (thrDraw : ℚ) : BayesianNeuron :=
  { id := neuron_id, layer := layer,
    synapses := (List.range 100).map (fun i => memInit log10 pow10 none (memDraw i)),
    threshold := thrDraw, potential := 0, spike_count := 0 }

/-- `NeuromorphicChip` state. -/
structure Chip where
  props : MaterialProperties
  layers : List (List BayesianNeuron)
  total_neurons : ℕ
  temperature : ℚ
  power_draw : ℚ

/-- The statistics record returned by `NeuromorphicChip.get_stats`. -/
structure ChipStats where
  neurons : ℕ
  synapses : ℕ
  mean_resistance : ℚ
  std_resistance : ℚ
  variability_percent : ℚ
  degraded_percent : ℚ
  temperature_C : ℚ
  power_W : ℚ

/-- The body of `NeuromorphicChip.__init__`, with the configuration that
the Python constructor hard-codes to `MaterialProperties()` exposed as a
parameter (the source entry point is `chipInitWith ... defaultMaterialProperties`).
Neurons get sequential global ids (`total + i` with `total` accumulated
layer by layer, i.e. `layer * neurons_per_layer + i`); `total_neurons`
accumulates the built layers' lengths.  No field of `props` is validated
anywhere in the constructor. -/
def chipInitWith (log10 pow10 : ℚ → ℚ) (memDraw : ℕ → ℕ → ℚ)
    (thrDraw : ℕ → ℚ) (props : MaterialProperties) : Chip :=
  let layers := (List.range props.num_layers).map (fun layer =>
    (List.range props.neurons_per_layer).map (fun i =>
      let nid := layer * props.neurons_per_layer + i
      neuronInit log10 pow10 nid layer (memDraw nid) (thrDraw nid)))
  { props := props, layers := layers,
    total_neurons := (layers.map List.length).sum,
    temperature := 300, power_draw := 0 }

/-- `NeuromorphicChip.thermal_simulation(ambient=300)`: sets
`temperature = ambient + power_draw * 0.1` and returns `temperature - 273`
(Celsius). -/
def thermal_simulation (chip : Chip) (ambient : ℚ := 300) : ℚ × Chip :=
  let t := ambient + chip.power_draw * (1/10)
  (t - 273, { chip with temperature := t })

/-- `NeuromorphicChip.process_random_spike()`.  `li`/`ni` are the values of
`np.random.randint(0, num_layers)` / `np.random.randint(0, neurons_per_layer)`
(always in range for any chip the source constructs, so the out-of-range
fallback branch is unreachable there); `inputs` is the drawn random input
vector and `fireDraw` the neuron's firing draw.  The wall-clock latency
the source returns is diagnostic-only and is not modelled; the function
returns the updated chip.  If the spike output is nonzero, `power_draw`
is incremented by `1e-12 * 10`. -/
def process_random_spike (expQ : ℚ → ℚ) (chip : Chip) (li ni : ℕ)
    (inputs : List ℚ) (fireDraw : ℚ) : Chip :=
  let layer := chip.layers.getD li []
  match layer.get? ni with
  | none => chip
  | some neuron =>
    let r := process expQ neuron inputs fireDraw
    let layers := chip.layers.set li (layer.set ni r.2)
    let power :=
      if r.1 > 0 then chip.power_draw + (1/1000000000000) * 10
      else chip.power_draw
    { chip with layers := layers, power_draw := power }

/-- `NeuromorphicChip.get_stats()`: scans every synapse of every neuron of
every layer, collecting resistances and counting degraded elements, and
builds the statistics record.  `sqrtQ` abstracts the square root inside
`np.std` (std = sqrt of the mean squared deviation).  The only state
change is the `temperature` update performed by the embedded
`thermal_simulation()` call. -/
def get_stats (sqrtQ : ℚ → ℚ) (chip : Chip) : ChipStats × Chip :=
  let all_resistances :=
    (chip.layers.map (fun layer =>
      (layer.map (fun n => n.synapses.map (fun s => s.resistance))).flatten)).flatten
  let degraded :=
    (chip.layers.map (fun layer =>
      (layer.map (fun n => n.synapses.countP (fun s => s.degraded))).sum)).sum
  let count : ℚ := all_resistances.length
  let mean := all_resistances.sum / count
  let variance := (all_resistances.map (fun r => (r - mean) ^ 2)).sum / count
  let std := sqrtQ variance
  let r := thermal_simulation chip 300
  ({ neurons := chip.total_neurons,
     synapses := all_resistances.length,
     mean_resistance := mean,
     std_resistance := std,
     variability_percent := (std / mean) * 100,
     degraded_percent := ((degraded : ℚ) / count) * 100,
     temperature_C := r.1,
     power_W := chip.power_draw }, r.2)

/-- A sample in-range, non-degraded memristor state (used to instantiate
theorems with hypotheses at a concrete input). -/
def memSample : HfO2Memristor :=
  { props := defaultMaterialProperties, resistance := 50000,
    filament := 1/50000, cycles := 0, degraded := false, history := [50000] }

/-- A sample memristor state whose `degraded` flag is set. -/
def memBroken : HfO2Memristor :=
  { props := defaultMaterialProperties, resistance := 50000,
    filament := 1/50000, cycles := 12000, degraded := true,
    history := [50000] }

lemma npClip_le_hi (x lo hi : ℚ) : npClip x lo hi ≤ hi := min_le_right _ _

lemma lo_le_npClip (x lo hi : ℚ) (h : lo ≤ hi) : lo ≤ npClip x lo hi :=
  le_min (le_max_right _ _) h

/-- C1: on a non-degraded element, `pulse v` increments `cycles` by one and
sets `resistance` to `clip(r_old * f, r_min, r_max)` with `f = 0.97` when
`v > 1.0`, `f = 1.03` when `v < -1.0`, and `f = 1` otherwise (the pulse is
still counted as a cycle); consequently the new resistance lies in
`[r_min, r_max] = [10000, 1000000]`. -/
theorem pulse_update_spec (m : HfO2Memristor) (v d : ℚ)
    (hdeg : m.degraded = false) (hp : m.props = defaultMaterialProperties) :
    (pulse m v d).cycles = m.cycles + 1 ∧
    (pulse m v d).resistance =
      npClip (m.resistance *
        (if v > 1 then 97/100 else if v < -1 then 103/100 else 1))
        10000 1000000 ∧
    10000 ≤ (pulse m v d).resistance ∧ (pulse m v d).resistance ≤ 1000000 := by
  have hres : (pulse m v d).resistance =
      npClip (m.resistance *
        (if v > 1 then 97/100 else if v < -1 then 103/100 else 1))
        10000 1000000 := by
    simp only [pulse, hdeg, Bool.false_eq_true, if_false, hp,
      defaultMaterialProperties]
    split_ifs <;> simp [mul_one]
  refine ⟨by simp [pulse, hdeg], hres, ?_, ?_⟩
  · rw [hres]; exact lo_le_npClip _ _ _ (by norm_num)
  · rw [hres]; exact npClip_le_hi _ _ _

/-- C1 witness: `pulse_update_spec` instantiated at `memSample` with a
SET pulse of 2 V and degradation draw 0. -/
theorem pulse_update_spec_witness :
    (pulse memSample 2 0).cycles = memSample.cycles + 1 ∧
    (pulse memSample 2 0).resistance =
      npClip (memSample.resistance *
        (if (2:ℚ) > 1 then 97/100 else if (2:ℚ) < -1 then 103/100 else 1))
        10000 1000000 ∧
    10000 ≤ (pulse memSample 2 0).resistance ∧
    (pulse memSample 2 0).resistance ≤ 1000000 :=
  pulse_update_spec memSample 2 0 rfl rfl

/-- C2: once `degraded = true`, every `pulse` call (any voltage, any
degradation draw) returns the state unchanged — resistance, conductance,
cycle count, degraded flag, and history all identical — and every `read`
call (any voltage) returns exactly 0; both are total functions, so no
exception is possible. -/
theorem degraded_noop_spec (m : HfO2Memristor) (v d w : ℚ)
    (h : m.degraded = true) :
    pulse m v d = m ∧ read m w = 0 := by
  constructor <;> simp [pulse, read, h]

/-- C2 witness: `degraded_noop_spec` instantiated at `memBroken`. -/
theorem degraded_noop_spec_witness :
    pulse memBroken 2 0 = memBroken ∧ read memBroken (1/5) = 0 :=
  degraded_noop_spec memBroken 2 0 (1/5) rfl

lemma foldl_add_div_eq_sum (l : List (ℚ × HfO2Memristor)) (a : ℚ) :
    l.foldl (fun acc p => acc + p.1 / p.2.resistance) a
      = a + (l.map (fun p => p.1 / p.2.resistance)).sum := by
  induction l generalizing a with
  | nil => simp
  | cons x xs ih => simp [ih, add_assoc]

/-- C3: the current-summation loop of `process` sums
`inputs[i] / synapses[i].resistance` directly over the consulted
positions — it divides by the raw `resistance` field rather than calling
`read` — so a degraded element with nonzero frozen resistance facing a
nonzero input contributes a nonzero term, even though `read` on that same
element returns 0. -/
theorem process_direct_resistance (inputs : List ℚ)
    (syns : List HfO2Memristor) (i : ℕ)
    (hiI : i < inputs.length) (hiS : i < syns.length)
    (hdeg : syns[i].degraded = true)
    (hr : syns[i].resistance ≠ 0)
    (hv : inputs[i] ≠ 0) :
    total_current inputs syns =
      (((inputs.take syns.length).zip syns).map
        (fun p => p.1 / p.2.resistance)).sum ∧
    (((inputs.take syns.length).zip syns).map
        (fun p => p.1 / p.2.resistance)).get? i
      = some (inputs[i] / syns[i].resistance) ∧
    inputs[i] / syns[i].resistance ≠ 0 ∧
    read (syns[i]) (1/5) = 0 := by
  have hlen : i < (((inputs.take syns.length).zip syns).map
      (fun p => p.1 / p.2.resistance)).length := by
    simp only [List.length_map, List.length_zip, List.length_take]
    omega
  refine ⟨?_, ?_, div_ne_zero hv hr, ?_⟩
  · simp [total_current, foldl_add_div_eq_sum]
  · rw [List.get?_eq_getElem?, List.getElem?_eq_getElem hlen]
    congr 1
    rw [List.getElem_map, List.getElem_zip]
    simp
  · simp [read, hdeg]

/-- C3 witness: `process_direct_resistance` instantiated at a one-element
bank holding the degraded `memBroken` (resistance 50000) and input 1. -/
theorem process_direct_resistance_witness :
    total_current [1] [memBroken] =
      ((([(1:ℚ)].take [memBroken].length).zip [memBroken]).map
        (fun p => p.1 / p.2.resistance)).sum ∧
    ((([(1:ℚ)].take [memBroken].length).zip [memBroken]).map
        (fun p => p.1 / p.2.resistance)).get? 0
      = some ([(1:ℚ)].get ⟨0, by norm_num⟩ /
          ([memBroken].get ⟨0, by norm_num⟩).resistance) ∧
    [(1:ℚ)].get ⟨0, by norm_num⟩ /
        ([memBroken].get ⟨0, by norm_num⟩).resistance ≠ 0 ∧
    read ([memBroken].get ⟨0, by norm_num⟩) (1/5) = 0 :=
  process_direct_resistance [1] [memBroken] 0 (by norm_num) (by norm_num)
    rfl (by norm_num [memBroken]) (by norm_num)

/-- C4: one `process` step first sets the potential to
`0.9 * old + 0.1 * total_current`, computes the firing probability
`1 / (1 + exp(-(potential - threshold) * 5))`, and then: if the uniform
draw is below that probability the unit fires (spike counter incremented,
potential reset to exactly 0, probability returned); otherwise it returns
0 and the potential keeps the leaky-integration value. -/
theorem process_fire_spec (expQ : ℚ → ℚ) (n : BayesianNeuron)
    (inputs : List ℚ) (draw : ℚ) :
    (draw < 1 / (1 + expQ (-(((9/10) * n.potential +
          (1/10) * total_current inputs n.synapses - n.threshold) * 5))) →
      process expQ n inputs draw =
        (1 / (1 + expQ (-(((9/10) * n.potential +
            (1/10) * total_current inputs n.synapses - n.threshold) * 5))),
         { n with potential := 0, spike_count := n.spike_count + 1 })) ∧
    (¬ draw < 1 / (1 + expQ (-(((9/10) * n.potential +
          (1/10) * total_current inputs n.synapses - n.threshold) * 5))) →
      process expQ n inputs draw =
        (0, { n with potential := (9/10) * n.potential +
                (1/10) * total_current inputs n.synapses })) := by
  constructor <;> intro h <;> simp only [process] <;>
    [rw [if_pos h]; rw [if_neg h]]

/-- A minimal unit state with an empty element bank (consistent with the
spec's `len(elements)`-length truncation: with no elements the current sum
is 0). -/
def neuronSample : BayesianNeuron :=
  { id := 0, layer := 0, synapses := [], threshold := 0, potential := 0,
    spike_count := 0 }

/-- C4 witness: with `expQ = const 1` the probability is `1/2`; a draw of
0 fires (potential reset to 0, spike counter 1, output `1/2`) and a draw
of 1 does not fire (output 0, potential keeps the integration value). -/
theorem process_fire_spec_witness :
    process (fun _ => 1) neuronSample [] 0 =
      (1/2, { neuronSample with potential := 0, spike_count := 1 }) ∧
    process (fun _ => 1) neuronSample [] 1 =
      (0, { neuronSample with potential := (9/10) * neuronSample.potential +
              (1/10) * total_current [] neuronSample.synapses }) := by
  constructor
  · have h := (process_fire_spec (fun _ => 1) neuronSample [] 0).1
      (by norm_num [total_current, neuronSample])
    rw [h]
    norm_num [total_current, neuronSample]
  · exact (process_fire_spec (fun _ => 1) neuronSample [] 1).2
      (by norm_num [total_current, neuronSample])

/-- C5: `power_draw` never decreases.  `process_random_spike` leaves it
unchanged (no spike) or raises it by the fixed per-spike quantum
`1e-12 * 10 = 1e-11`; `thermal_simulation` and `get_stats` leave it
unchanged.  (`pulse` and `process` act on a single element / unit and do
not even take the chip state, so they cannot touch `power_draw`.) -/
theorem power_draw_monotone (expQ sqrtQ : ℚ → ℚ) (chip : Chip)
    (li ni : ℕ) (inputs : List ℚ) (fireDraw amb : ℚ) :
    chip.power_draw
      ≤ (process_random_spike expQ chip li ni inputs fireDraw).power_draw ∧
    ((process_random_spike expQ chip li ni inputs fireDraw).power_draw
        = chip.power_draw ∨
     (process_random_spike expQ chip li ni inputs fireDraw).power_draw
        = chip.power_draw + (1/1000000000000) * 10) ∧
    (thermal_simulation chip amb).2.power_draw = chip.power_draw ∧
    (get_stats sqrtQ chip).2.power_draw = chip.power_draw := by
  have key : (process_random_spike expQ chip li ni inputs fireDraw).power_draw
        = chip.power_draw ∨
      (process_random_spike expQ chip li ni inputs fireDraw).power_draw
        = chip.power_draw + (1/1000000000000) * 10 := by
    unfold process_random_spike
    dsimp only
    cases h : (chip.layers.getD li []).get? ni with
    | none => exact Or.inl rfl
    | some neuron =>
      by_cases hs : (process expQ neuron inputs fireDraw).1 > 0
      · exact Or.inr (by simp [hs])
      · exact Or.inl (by simp [hs])
  refine ⟨?_, key, rfl, rfl⟩
  rcases key with h | h
  · rw [h]
  · rw [h]; linarith

/-- C6: `get_stats` mutates nothing except the temperature, which its
internal `thermal_simulation()` call sets to the default-ambient value
`300 + power_draw * 0.1`: the post-state is exactly the pre-state with
only the `temperature` field replaced (every layer, unit, and element,
and `power_draw`, are untouched). -/
theorem get_stats_frame (sqrtQ : ℚ → ℚ) (chip : Chip) :
    (get_stats sqrtQ chip).2 =
      { chip with temperature := 300 + chip.power_draw * (1/10) } ∧
    (get_stats sqrtQ chip).2.temperature
      = (thermal_simulation chip 300).2.temperature :=
  ⟨rfl, rfl⟩

/-- C7: constructing the chip over a malformed configuration does NOT
fail: no validation exists anywhere.  With `neurons_per_layer = 0` the
constructor happily returns a network of 8 empty layers and 0 units, and
with an inverted resistance range (`r_min = 1e6 > r_max = 1e4`, the
structure accepting it without complaint) it returns a full 10000-unit
network. -/
theorem chip_construction_no_validation (log10 pow10 : ℚ → ℚ)
    (memDraw : ℕ → ℕ → ℚ) (thrDraw : ℕ → ℚ) :
    (chipInitWith log10 pow10 memDraw thrDraw
        { defaultMaterialProperties with neurons_per_layer := 0 }).total_neurons
      = 0 ∧
    (chipInitWith log10 pow10 memDraw thrDraw
        { defaultMaterialProperties with neurons_per_layer := 0 }).layers
      = List.replicate 8 [] ∧
    (chipInitWith log10 pow10 memDraw thrDraw
        { defaultMaterialProperties with
            hfo2_resistance_range := (1000000, 10000) }).total_neurons
      = 10000 := by
  refine ⟨rfl, rfl, ?_⟩
  simp only [chipInitWith, defaultMaterialProperties, List.map_map]
  simp [Function.comp_def, List.map_const']

/-- C8: `process` never modifies any element: the unit's `synapses` bank
(hence every element's resistance, conductance, cycle count, degraded
flag, and history), its id, layer, and threshold are all returned
unchanged; only `potential` and possibly `spike_count` differ. -/
theorem process_element_frame (expQ : ℚ → ℚ) (n : BayesianNeuron)
    (inputs : List ℚ) (draw : ℚ) :
    (process expQ n inputs draw).2.synapses = n.synapses ∧
    (process expQ n inputs draw).2.id = n.id ∧
    (process expQ n inputs draw).2.layer = n.layer ∧
    (process expQ n inputs draw).2.threshold = n.threshold := by
  simp only [process]
  split_ifs <;> exact ⟨rfl, rfl, rfl, rfl⟩

/-- C9: `len(history) = cycles + 1` is an invariant: construction starts
with `history = [initial resistance]` and `cycles = 0`, and every `pulse`
preserves the equation (a non-degraded pulse increments `cycles` and
appends exactly one history entry; a degraded pulse changes neither;
`read` is a pure function and changes no state at all). -/
theorem history_cycles_invariant :
    (∀ log10 pow10 t d, (memInit log10 pow10 t d).history.length
        = (memInit log10 pow10 t d).cycles + 1) ∧
    (∀ (m : HfO2Memristor) (v d : ℚ), m.history.length = m.cycles + 1 →
      (pulse m v d).history.length = (pulse m v d).cycles + 1) := by
  constructor
  · intro log10 pow10 t d; rfl
  · intro m v d h
    by_cases hd : m.degraded
    · simp [pulse, hd, h]
    · simp [pulse, hd, h]

/-- C9 witness: the `pulse` preservation step of
`history_cycles_invariant` applied at `memSample` (whose history length is
`cycles + 1 = 1`). -/
theorem history_cycles_invariant_witness :
    (pulse memSample 2 0).history.length = (pulse memSample 2 0).cycles + 1 :=
  history_cycles_invariant.2 memSample 2 0 rfl

/-- C10: constructing an element with `target_resistance = 0` behaves
identically to constructing it with no target: Python's
`target_resistance or default` replaces the falsy `0` by the configured
100 kΩ default before any sampling, so the two constructions agree for
every choice of `log10`, `pow10`, and normal draw, and no error occurs
(the constructor is total). -/
theorem memInit_zero_target (log10 pow10 : ℚ → ℚ) (d : ℚ) :
    memInit log10 pow10 (some 0) d = memInit log10 pow10 none d := by
  simp [memInit]

end Neuromorphic
